import Mathlib

/-!
Shallow embedding of `src/noaa.py` (class `NOAA`): the NOAA ingestion and
enrichment pipeline.  The SQLite tables `data` and `info` are modelled as
lists of rows in insertion order; the SQL statements the source assembles
by string concatenation are modelled both at the string level (the exact
statement text, for claims about malformed statements) and at the
table level (the effect SQLite gives a well-formed statement).
-/

set_option maxHeartbeats 1000000

/-- One row of the `data` table (schema of `NOAA.__init__`, lines 57-75 of
`noaa.py`): key `(station, date)` plus the 13 weather fields.  The source
renders every CSV value into the SQL text as a `"`-quoted literal, so the
stored values are modelled as the strings that appear in the statement. -/
structure ObsRow where
  station : String
  date : String
  temp : String
  dewp : String
  slp : String
  stp : String
  visib : String
  wdsp : String
  mxspd : String
  gust : String
  max : String
  min : String
  prcp : String
  sndp : String
  frshtt : String
  deriving DecidableEq

/-- One row of the `info` table (schema of `NOAA.__init__`, lines 43-54):
primary key `station_id` plus name, coordinates and the four
administrative-region fields filled in by the Baidu reverse geocoder. -/
structure InfoRow where
  station_id : String
  name : String
  latitude : String
  longitude : String
  country : String
  province : String
  city : String
  district : String
  deriving DecidableEq

/-- The SQLite database of `noaa.py`: the `data` table and the `info` table,
each as its list of rows in insertion order. -/
structure DB where
  data : List ObsRow
  info : List InfoRow
  deriving DecidableEq

/-- The administrative-region dictionary returned by
`BaiduMap.get_location`.  Modelled from the spec: `BaiduMap` lives in the
repository's `toolbox` module, which is not under `src/`; section 4.6 and
section 6 of the spec say the reverse-geocoding call consumes
`(latitude, longitude)` and returns `country/province/city/district`. -/
structure Location where
  country : String
  province : String
  city : String
  district : String
  deriving DecidableEq

/-- Uncaught Python exceptions escaping a pipeline step:
`sqlSyntax` is `sqlite3.OperationalError` raised by `cursor.execute` on a
malformed statement, `integrity` is `sqlite3.IntegrityError` raised on a
primary-key conflict of a plain `INSERT`, and `geocodeError` is an
exception raised by `BaiduMap.get_location` (line 210, outside the
`try` block of `_insert_single_station`). -/
inductive RunError where
  | sqlSyntax
  | integrity
  | geocodeError
  deriving DecidableEq

instance {ε α : Type} [DecidableEq ε] [DecidableEq α] : DecidableEq (Except ε α)
  | .ok a, .ok b =>
    if h : a = b then .isTrue (by rw [h]) else .isFalse (fun he => by cases he; exact h rfl)
  | .error a, .error b =>
    if h : a = b then .isTrue (by rw [h]) else .isFalse (fun he => by cases he; exact h rfl)
  | .ok _, .error _ => .isFalse (fun h => by cases h)
  | .error _, .ok _ => .isFalse (fun h => by cases h)

/-- The outcome of `pd.read_csv` on one CSV file (lines 150-155):
`failure` when reading raised (the `except:` branch), `rows rs` when the
fifteen required columns were read and yielded the data rows `rs`. -/
inductive CsvParse where
  | failure
  | rows (rs : List ObsRow)
  deriving DecidableEq

/-- The outcome of `extract_tar` on one archive.  Modelled from the spec:
`extract_tar` lives in the repository's `toolbox` module, which is not
under `src/`; section 4.3 of the spec says extraction of one archive
either succeeds or reports its error without raising (fail-soft per
file), so the outcome is a value, never an exception. -/
inductive ExtractResult where
  | failed
  | extracted (csvs : List CsvParse)
  deriving DecidableEq

/-- The f-string `f'"{v}"'` used for every SQL value the source writes
(line 164 for `data` rows, line 214 for `info` rows): the value wrapped
in double quotes, with no escaping whatsoever. -/
def renderValue (v : String) : String := "\"" ++ v ++ "\""

/-- SQLite's lexing of the text after an opening `"`: a doubled `""` stands
for one `"` inside the token, a single `"` closes it, end of input before
a closing quote is a lexical error.  Returns the token's content and the
remaining characters. -/
def scanQuoted : List Char → Option (List Char × List Char)
  | [] => none
  | c :: rest =>
    if c == '"' then
      match rest with
      | [] => some ([], [])
      | c2 :: rest2 =>
        if c2 == '"' then (scanQuoted rest2).map (fun p => ('"' :: p.1, p.2))
        else some ([], rest)
    else (scanQuoted rest).map (fun p => (c :: p.1, p.2))

/-- Lex one `"`-quoted token from the front of the character list. -/
def parseQuoted (l : List Char) : Option (List Char × List Char) :=
  match l with
  | c :: rest => if c == '"' then scanQuoted rest else none
  | [] => none

/-- What SQLite makes of the rendered literal `renderValue v` standing
alone as one value of the statement: `some w` when the literal lexes as a
single complete token with content `w`, `none` when the literal is
malformed there (stray quote), which makes `cursor.execute` raise. -/
def parseRendered (v : String) : Option String :=
  match parseQuoted (renderValue v).data with
  | some (w, []) => some (String.mk w)
  | _ => none

/-- A value containing no double quote renders into a literal that SQLite
reads back verbatim; values with embedded quotes are exactly the ones the
unescaped f-string rendering mishandles. -/
def quoteFree (v : String) : Prop := '"' ∉ v.data

instance : DecidablePred quoteFree :=
  fun v => inferInstanceAs (Decidable ('"' ∉ v.data))

/-- Lex back a whole list of rendered values, failing if any one fails. -/
def parseValues : List String → Option (List String)
  | [] => some []
  | v :: vs =>
    match parseRendered v, parseValues vs with
    | some w, some ws => some (w :: ws)
    | _, _ => none

/-- The fifteen values of one `data` row in the column order of the
`INSERT` statement of `_insert_single_csv` (lines 158-163). -/
def obsFields (r : ObsRow) : List String :=
  [r.station, r.date, r.temp, r.dewp, r.slp, r.stp, r.visib, r.wdsp,
   r.mxspd, r.gust, r.max, r.min, r.prcp, r.sndp, r.frshtt]

/-- Rebuild a `data` row from the fifteen values SQLite lexed out of the
statement text. -/
def rowOfFields : List String → Option ObsRow
  | [st, d, t, de, sl, sp, vi, wd, mx, gu, ma, mi, pr, sn, fr] =>
      some ⟨st, d, t, de, sl, sp, vi, wd, mx, gu, ma, mi, pr, sn, fr⟩
  | _ => none

/-- The row SQLite actually stores for a candidate `data` row: every field
is pushed through the unescaped quoting of line 164 and lexed back. -/
def parseObsRow (r : ObsRow) : Option ObsRow :=
  (parseValues (obsFields r)).bind rowOfFields

/-- Lex back a whole batch of candidate `data` rows. -/
def parseObsRows : List ObsRow → Option (List ObsRow)
  | [] => some []
  | r :: rs =>
    match parseObsRow r, parseObsRows rs with
    | some w, some ws => some (w :: ws)
    | _, _ => none

/-- Key of a `data` row: the composite primary key `(station, date)` of the
schema (line 74). -/
def obsKey (r : ObsRow) : String × String := (r.station, r.date)

/-- Does a row with the same `(station, date)` key already sit in the
`data` table? -/
def keyPresent (tbl : List ObsRow) (r : ObsRow) : Bool :=
  tbl.any (fun q => q.station == r.station && q.date == r.date)

/-- Effect of one `VALUES` tuple of an `INSERT OR IGNORE INTO data`
statement: a key conflict makes SQLite silently skip the tuple, otherwise
the row is appended. -/
def insertOrIgnoreObs (tbl : List ObsRow) (r : ObsRow) : List ObsRow :=
  if keyPresent tbl r then tbl else tbl ++ [r]

/-- Effect of a multi-tuple `INSERT OR IGNORE INTO data` statement: the
tuples are processed left to right. -/
def insertOrIgnoreBatch (tbl : List ObsRow) (rows : List ObsRow) : List ObsRow :=
  rows.foldl insertOrIgnoreObs tbl

/-- Lookup of the stored `data` row with the given key (first match in
insertion order; with the key invariant there is at most one). -/
def findObs (tbl : List ObsRow) (s d : String) : Option ObsRow :=
  tbl.find? (fun q => q.station == s && q.date == d)

/-- Header of the statement `_insert_single_csv` assembles
(lines 158-159), verbatim. -/
def obsHeader : String :=
  "INSERT OR IGNORE INTO data(STATION, DATE, TEMP, DEWP, SLP, STP, VISIB, WDSP, MXSPD, GUST, MAX, MIN, PRCP, SNDP, FRSHTT) VALUES"

/-- One `VALUES` tuple as line 164-165 renders it:
every field double-quoted and joined with a comma and a space. -/
def renderObsTuple (r : ObsRow) : String :=
  "(" ++ String.intercalate ", " ((obsFields r).map renderValue) ++ ")"

/-- The full statement `_insert_single_csv` assembles for a batch
(lines 158-166): header, the comma-terminated tuples with the final
character dropped (Python `value[:-1]`), and a semicolon. -/
def obsInsertStatement (rows : List ObsRow) : String :=
  obsHeader ++ (String.join (rows.map (fun r => renderObsTuple r ++ ","))).dropRight 1 ++ ";"

/-- Execution of the assembled `data` insert (line 169).  An empty batch
assembles `... VALUES;`, which SQLite rejects as a syntax error before
touching the table; a batch whose rendered values do not lex back as one
token each is likewise rejected whole; otherwise the statement inserts
the lexed-back rows with ignore-on-conflict semantics. -/
def execDataInsert (db : DB) (rows : List ObsRow) : Except RunError DB :=
  match rows with
  | [] => .error .sqlSyntax
  | _ :: _ =>
    match parseObsRows rows with
    | none => .error .sqlSyntax
    | some rs => .ok { db with data := insertOrIgnoreBatch db.data rs }

/-- `NOAA._insert_single_csv` (lines 141-170): a failing `pd.read_csv` is
caught and the method returns with the store untouched; a successful read
feeds the rows to the assembled `INSERT OR IGNORE` statement, whose
execution stands outside any exception handler. -/
def insert_single_csv (db : DB) (c : CsvParse) : Except RunError DB :=
  match c with
  | .failure => .ok db
  | .rows rows => execDataInsert db rows

/-- The CSV loop of `NOAA.insert_raw_data` (lines 135-139): each file is
inserted in turn; an uncaught exception from `_insert_single_csv` aborts
the loop, leaving the store as it was before the failing statement. -/
def insertCsvs (db : DB) : List CsvParse → DB × Option RunError
  | [] => (db, none)
  | c :: cs =>
    match insert_single_csv db c with
    | .ok db2 => insertCsvs db2 cs
    | .error e => (db, some e)

/-- Column list of the `info` insert of `_insert_single_station`
(line 215): the dict keys in insertion order - the four fields built at
lines 200-205 followed by the four location keys merged at line 211. -/
def infoKeys : List String :=
  ["station_id", "name", "latitude", "longitude", "country", "province", "city", "district"]

/-- Value list of the `info` insert, in the same order. -/
def infoValues (sid name lat lon : String) (loc : Location) : List String :=
  [sid, name, lat, lon, loc.country, loc.province, loc.city, loc.district]

/-- The statement `_insert_single_station` assembles (lines 214-215),
verbatim: a plain `INSERT` (no `OR IGNORE`) with every value
double-quoted by the f-string of line 214. -/
def infoInsertStatement (vals : List String) : String :=
  "INSERT INTO info(" ++ String.intercalate ", " infoKeys ++ ") VALUES(" ++ String.intercalate ", " (vals.map renderValue) ++ ");"

/-- Rebuild an `info` row from the eight lexed-back values. -/
def mkInfoRow : List String → Option InfoRow
  | [sid, nm, lat, lon, c, p, ci, d] => some ⟨sid, nm, lat, lon, c, p, ci, d⟩
  | _ => none

/-- Execution of the assembled `info` insert (lines 217-218): a rendered
value that does not lex back makes SQLite reject the statement; a
primary-key conflict on `station_id` raises `IntegrityError` (plain
`INSERT`); otherwise the row is appended. -/
def execInfoInsert (db : DB) (vals : List String) : Except RunError DB :=
  match (parseValues vals).bind mkInfoRow with
  | none => .error .sqlSyntax
  | some row =>
    if db.info.any (fun q => q.station_id == row.station_id) then .error .integrity
    else .ok { db with info := db.info ++ [row] }

/-- Outcome of the station-metadata lookup of `_insert_single_station`
(lines 199-205): `netError` when `s.get(...).json()` raised inside the
`try`, `badFields` when indexing the response dict raised inside the
`try`, `found` when name, latitude and longitude were extracted. -/
inductive LookupResult where
  | netError
  | badFields
  | found (name lat lon : String)
  deriving DecidableEq

/-- The external services `_insert_single_station` talks to: the NOAA
station API (deterministic per station id for a fixed remote state) and
`BaiduMap.get_location`, where `none` models a raised exception
(the call at line 210 is outside the `try` block). -/
structure Enricher where
  lookup : String → LookupResult
  geocode : String → String → Option Location

/-- `NOAA._insert_single_station` (lines 186-220): lookup failures are
caught by the `try/except` and the method returns with the store
untouched; a raising `get_location` and any error of the `info` insert
happen outside the handler and escape to the caller. -/
def insert_single_station (env : Enricher) (db : DB) (sid : String) : Except RunError DB :=
  match env.lookup sid with
  | .netError => .ok db
  | .badFields => .ok db
  | .found nm lat lon =>
    match env.geocode lat lon with
    | none => .error .geocodeError
    | some loc => execInfoInsert db (infoValues sid nm lat lon loc)

/-- Strict lexicographic comparison of character lists by code point,
mirroring the core `List.lt` used by the `String` order (executable so
concrete stores evaluate inside the kernel). -/
def listLtB : List Char → List Char → Bool
  | [], [] => false
  | [], _ :: _ => true
  | _ :: _, [] => false
  | a :: as, b :: bs =>
    if a.val.toNat < b.val.toNat then true
    else if b.val.toNat < a.val.toNat then false
    else listLtB as bs

/-- Executable strict order on strings. -/
def strLtB (a b : String) : Bool := listLtB a.data b.data

/-- Executable order on strings: `a` at most `b`. -/
def strLeB (a b : String) : Bool := ! strLtB b a

/-- The id query of `insert_station_info` (lines 181-182) before its
`ORDER BY`: `SELECT DISTINCT data.station ... LEFT OUTER JOIN info ...
WHERE info.station_id IS NULL` - the station of every `data` row with no
matching `info` row, first occurrences kept. -/
def missingBase (db : DB) : List String :=
  ((db.data.map ObsRow.station).filter
    (fun s => !(db.info.any (fun q => q.station_id == s)))).dedup

/-- The full id query of `insert_station_info` (lines 181-182): the
distinct unmatched station ids ordered descending (`ORDER BY data.station
DESC`; SQLite's BINARY collation compares UTF-8 bytes, which on UTF-8
coincides with the code-point lexicographic order used here). -/
def missingStationIds (db : DB) : List String :=
  List.insertionSort (fun a b : String => strLeB b a = true) (missingBase db)

/-- The enrichment loop of `insert_station_info` (lines 183-184) over a
list of station ids: returns the final store, the ids for which the
external lookup was actually issued, and the first uncaught exception if
one aborted the loop.  The `ORDER BY` makes SQLite materialise the id
list before iteration, so the loop runs over the list computed up front. -/
def enrichGo (env : Enricher) (db : DB) : List String → DB × List String × Option RunError
  | [] => (db, [], none)
  | sid :: rest =>
    match insert_single_station env db sid with
    | .ok db2 =>
      let out := enrichGo env db2 rest
      (out.1, sid :: out.2.1, out.2.2)
    | .error e => (db, [sid], some e)

/-- `NOAA.insert_station_info` (lines 172-184): run the enrichment loop
over the ids the query returns. -/
def insert_station_info (env : Enricher) (db : DB) : DB × List String × Option RunError :=
  enrichGo env db (missingStationIds db)

/-- Python `str.split(sep)` on a character list: splits at every
occurrence of the separator, keeping empty segments, with `[""]` for the
empty string. -/
def splitOnChar (sep : Char) : List Char → List (List Char)
  | [] => [[]]
  | c :: rest =>
    if c == sep then [] :: splitOnChar sep rest
    else
      match splitOnChar sep rest with
      | [] => [[c]]
      | g :: gs => (c :: g) :: gs

/-- Does the second character list start with the first? -/
def leadsWith : List Char → List Char → Bool
  | [], _ => true
  | _ :: _, [] => false
  | p :: ps, c :: cs => p == c && leadsWith ps cs

/-- Python `url.split('/')[-1]` (line 90): the name under which
`_download_tar_gz` saves the file. -/
def lastSegment (url : String) : String :=
  String.mk ((splitOnChar '/' url.data).getLastD [])

/-- `urljoin(base, url)` of line 121, modelled for the two shapes that
occur: an absolute URL is kept, a relative reference is appended to the
base (the configured archive URL, a directory URL ending in a slash). -/
def urljoin (base url : String) : String :=
  if leadsWith "http".data url.data then url else base ++ url

/-- Writing a file: the download folder is modelled as the list of names
present in it; writing an existing name replaces its content and adds
nothing. -/
def fileWrite (fs : List String) (nm : String) : List String :=
  if nm ∈ fs then fs else fs ++ [nm]

/-- The fixed remote state the pipeline runs against: the catalog hrefs
matching the xpath of line 112, the HTTP status per absolute URL
(line 95), and the extraction outcome per archive file name
(deterministic for an unchanged remote). -/
structure World where
  hrefs : List String
  status : String → Bool
  extraction : String → ExtractResult

/-- One iteration of the download loop of `fetch_raw_data`
(lines 114-121) over the accumulated (requests issued, folder contents):
if `os.path.exists(join(folder, url))` - the raw href joined to the
folder - the iteration is skipped with no request; otherwise
`_download_tar_gz` issues one GET for the joined absolute URL and, on a
200 status, saves the body under the URL's last path segment.  A request
is recorded as the pair (href, absolute URL fetched). -/
def fetchStep (w : World) (base : String) (acc : List (String × String) × List String)
    (url : String) : List (String × String) × List String :=
  if url ∈ acc.2 then acc
  else if w.status (urljoin base url) then
    (acc.1 ++ [(url, urljoin base url)], fileWrite acc.2 (lastSegment (urljoin base url)))
  else (acc.1 ++ [(url, urljoin base url)], acc.2)

/-- `NOAA.fetch_raw_data` (lines 104-121): fold the download loop over the
catalog hrefs, starting from the current folder contents. -/
def fetch_raw_data (w : World) (base : String) (fs : List String) :
    List (String × String) × List String :=
  w.hrefs.foldl (fetchStep w base) ([], fs)

/-- Python `item.split('.')[-1] == 'gz'` (line 131): the filter picking
archive files out of the folder listing. -/
def isGz (nm : String) : Bool :=
  (splitOnChar '.' nm.data).getLastD [] == "gz".data

/-- The CSV batches an extraction outcome contributes. -/
def extractedCsvs : ExtractResult → List CsvParse
  | .failed => []
  | .extracted cs => cs

/-- Did the extraction of this archive report a failure? -/
def extractFailedB : ExtractResult → Bool
  | .failed => true
  | .extracted _ => false

/-- The CSV files present after the extraction loop over a folder:
each `.gz` file extracted in listing order, failures contributing
nothing. -/
def csvsOf (w : World) (fs : List String) : List CsvParse :=
  ((fs.filter isGz).map w.extraction).flatMap extractedCsvs

/-- `NOAA.insert_raw_data` (lines 123-139): extract every `.gz` file in
the folder, then insert every resulting CSV.  Returns the store, the
number of extraction failures reported, and the uncaught exception of the
CSV loop if one aborted it. -/
def insert_raw_data (w : World) (db : DB) (fs : List String) : DB × Nat × Option RunError :=
  ((insertCsvs db (csvsOf w fs)).1,
   ((fs.filter isGz).map w.extraction).countP extractFailedB,
   (insertCsvs db (csvsOf w fs)).2)

/-- Local state the pipeline mutates: the download folder and the
database. -/
structure Machine where
  fs : List String
  db : DB
  deriving DecidableEq

/-- Continuation of a pipeline run after the fetch phase: an exception in
the insert phase aborts the run before enrichment (it would propagate out
of the method), otherwise enrichment runs on the inserted store. -/
def pipelineTail (env : Enricher) (fs1 : List String) (res : DB × Nat × Option RunError) :
    Machine × List String × Option RunError :=
  match res.2.2 with
  | some e => (⟨fs1, res.1⟩, [], some e)
  | none =>
    (⟨fs1, (insert_station_info env res.1).1⟩,
     (insert_station_info env res.1).2.1,
     (insert_station_info env res.1).2.2)

/-- One full pipeline run (the orchestration `fetch_raw_data` then
`insert_raw_data` then `insert_station_info`): returns the final state,
the station ids for which an external lookup was issued, and the first
uncaught exception. -/
def runPipeline (w : World) (base : String) (env : Enricher) (m : Machine) :
    Machine × List String × Option RunError :=
  pipelineTail env (fetch_raw_data w base m.fs).2
    (insert_raw_data w m.db (fetch_raw_data w base m.fs).2)

/-- Convenience row builder for concrete examples: station, date,
temperature, all other fields zeroed. -/
def mkObs (st d t : String) : ObsRow :=
  ⟨st, d, t, "0", "0", "0", "0", "0", "0", "0", "0", "0", "0", "0", "0"⟩

/-! ### Order bridge: the executable comparator agrees with the `String` order -/

theorem listLtB_iff (l1 l2 : List Char) :
    listLtB l1 l2 = true ↔ List.Lex (fun a b : Char => a < b) l1 l2 := by
  induction l1 generalizing l2 with
  | nil =>
    cases l2 with
    | nil =>
      constructor
      · intro h
        exact absurd h (by simp [listLtB])
      · intro h
        cases h
    | cons b bs =>
      constructor
      · intro _
        exact List.Lex.nil
      · intro _
        rfl
  | cons a as ih =>
    cases l2 with
    | nil =>
      constructor
      · intro h
        exact absurd h (by simp [listLtB])
      · intro h
        cases h
    | cons b bs =>
      simp only [listLtB]
      rcases Nat.lt_trichotomy a.val.toNat b.val.toNat with hlt | heq | hgt
      · rw [if_pos hlt]
        exact ⟨fun _ => List.Lex.rel hlt, fun _ => rfl⟩
      · have hab : a = b := Char.ext (UInt32.ext heq)
        rw [if_neg (by omega), if_neg (by omega)]
        subst hab
        constructor
        · intro h
          exact List.Lex.cons ((ih bs).mp h)
        · intro h
          cases h with
          | cons h2 => exact (ih bs).mpr h2
          | rel h2 => exact absurd h2 (Nat.lt_irrefl _)
      · rw [if_neg (by omega), if_pos hgt]
        constructor
        · intro h
          cases h
        · intro h
          cases h with
          | cons h2 => exact absurd hgt (Nat.lt_irrefl _)
          | rel h2 => exact absurd h2 (Nat.lt_asymm hgt)

theorem strLtB_iff (a b : String) : strLtB a b = true ↔ a < b := by
  rw [String.lt_iff_toList_lt]
  exact listLtB_iff a.data b.data

theorem strLeB_iff (a b : String) : strLeB a b = true ↔ a ≤ b := by
  show (! strLtB b a) = true ↔ ¬ b < a
  rw [Bool.not_eq_true', Bool.eq_false_iff]
  exact not_congr (strLtB_iff b a)

/-! ### The unescaped quoting of values -/

theorem scanQuoted_cons_ne (c : Char) (l : List Char) (hc : (c == '"') = false) :
    scanQuoted (c :: l) = (scanQuoted l).map (fun p => (c :: p.1, p.2)) := by
  rw [scanQuoted.eq_def]
  simp [hc]

theorem scanQuoted_clean (l : List Char) (h : ∀ c ∈ l, c ≠ '"') :
    scanQuoted (l ++ ['"']) = some (l, []) := by
  induction l with
  | nil => rfl
  | cons c cs ih =>
    have hc : (c == '"') = false := by
      simp only [beq_eq_false_iff_ne, ne_eq]
      exact h c (List.mem_cons_self c cs)
    rw [List.cons_append, scanQuoted_cons_ne c _ hc,
      ih (fun x hx => h x (List.mem_cons_of_mem c hx))]
    rfl

theorem renderValue_data (v : String) :
    (renderValue v).data = '"' :: (v.data ++ ['"']) := by
  show (("\"" ++ v ++ "\"" : String)).data = _
  rw [String.data_append, String.data_append]
  rfl

theorem parseRendered_clean (v : String) (h : quoteFree v) :
    parseRendered v = some v := by
  unfold parseRendered parseQuoted
  rw [renderValue_data]
  simp only [beq_self_eq_true, if_true]
  rw [scanQuoted_clean v.data (fun c hc => by
    intro he
    exact h (he ▸ hc))]

theorem parseValues_clean (l : List String) (h : ∀ v ∈ l, quoteFree v) :
    parseValues l = some l := by
  induction l with
  | nil => rfl
  | cons v vs ih =>
    simp only [parseValues, parseRendered_clean v (h v (List.mem_cons_self v vs)),
      ih (fun x hx => h x (List.mem_cons_of_mem v hx))]

/-- Every field of the row is quote-free (the normal shape of NOAA CSV
values, which are numeric). -/
def cleanRow (r : ObsRow) : Prop := ∀ v ∈ obsFields r, quoteFree v

instance : DecidablePred cleanRow :=
  fun r => inferInstanceAs (Decidable (∀ v ∈ obsFields r, quoteFree v))

theorem parseObsRow_clean (r : ObsRow) (h : cleanRow r) : parseObsRow r = some r := by
  unfold parseObsRow
  rw [parseValues_clean _ h]
  show rowOfFields (obsFields r) = some r
  rfl

theorem parseObsRows_clean (rs : List ObsRow) (h : ∀ r ∈ rs, cleanRow r) :
    parseObsRows rs = some rs := by
  induction rs with
  | nil => rfl
  | cons r rest ih =>
    simp only [parseObsRows, parseObsRow_clean r (h r (List.mem_cons_self r rest)),
      ih (fun x hx => h x (List.mem_cons_of_mem r hx))]

/-! ### Ignore-on-conflict semantics of the `data` insert -/

theorem keyPresent_append (tbl t : List ObsRow) (r : ObsRow)
    (h : keyPresent tbl r = true) : keyPresent (tbl ++ t) r = true := by
  unfold keyPresent at h ⊢
  rw [List.any_append, h, Bool.true_or]

theorem insertOrIgnoreObs_sub (tbl : List ObsRow) (r : ObsRow) :
    ∃ t, insertOrIgnoreObs tbl r = tbl ++ t := by
  unfold insertOrIgnoreObs
  by_cases h : keyPresent tbl r = true
  · exact ⟨[], by rw [if_pos h, List.append_nil]⟩
  · exact ⟨[r], by rw [if_neg h]⟩

theorem insertOrIgnoreBatch_sub (tbl : List ObsRow) (rows : List ObsRow) :
    ∃ t, insertOrIgnoreBatch tbl rows = tbl ++ t := by
  induction rows generalizing tbl with
  | nil => exact ⟨[], by rw [List.append_nil]; rfl⟩
  | cons r rest ih =>
    obtain ⟨t1, h1⟩ := insertOrIgnoreObs_sub tbl r
    obtain ⟨t2, h2⟩ := ih (insertOrIgnoreObs tbl r)
    refine ⟨t1 ++ t2, ?_⟩
    show insertOrIgnoreBatch (insertOrIgnoreObs tbl r) rest = tbl ++ (t1 ++ t2)
    rw [h2, h1, List.append_assoc]

theorem keyPresent_insertOrIgnoreObs_self (tbl : List ObsRow) (r : ObsRow) :
    keyPresent (insertOrIgnoreObs tbl r) r = true := by
  unfold insertOrIgnoreObs
  by_cases h : keyPresent tbl r = true
  · rw [if_pos h]; exact h
  · rw [if_neg h]
    unfold keyPresent
    rw [List.any_append]
    simp

theorem keyPresent_insertOrIgnoreBatch (tbl : List ObsRow) (rows : List ObsRow)
    (r : ObsRow) (h : keyPresent tbl r = true) :
    keyPresent (insertOrIgnoreBatch tbl rows) r = true := by
  obtain ⟨t, ht⟩ := insertOrIgnoreBatch_sub tbl rows
  rw [ht]
  exact keyPresent_append tbl t r h

theorem keyPresent_of_mem_batch (rows : List ObsRow) (r : ObsRow) (h : r ∈ rows) :
    ∀ tbl, keyPresent (insertOrIgnoreBatch tbl rows) r = true := by
  induction rows with
  | nil => cases h
  | cons a rest ih =>
    intro tbl
    show keyPresent (insertOrIgnoreBatch (insertOrIgnoreObs tbl a) rest) r = true
    rcases List.mem_cons.mp h with rfl | hr
    · exact keyPresent_insertOrIgnoreBatch _ rest r
        (keyPresent_insertOrIgnoreObs_self tbl r)
    · exact ih hr _

theorem insertOrIgnoreBatch_noop (tbl : List ObsRow) (rows : List ObsRow)
    (h : ∀ r ∈ rows, keyPresent tbl r = true) :
    insertOrIgnoreBatch tbl rows = tbl := by
  induction rows with
  | nil => rfl
  | cons a rest ih =>
    show insertOrIgnoreBatch (insertOrIgnoreObs tbl a) rest = tbl
    rw [insertOrIgnoreObs, if_pos (h a (List.mem_cons_self a rest))]
    exact ih (fun r hr => h r (List.mem_cons_of_mem a hr))

theorem obsKey_not_mem_of_keyPresent_false (tbl : List ObsRow) (r : ObsRow)
    (h : keyPresent tbl r = false) : obsKey r ∉ tbl.map obsKey := by
  intro hmem
  obtain ⟨q, hq, hkey⟩ := List.mem_map.mp hmem
  unfold keyPresent at h
  rw [List.any_eq_false] at h
  have := h q hq
  unfold obsKey at hkey
  have h1 : q.station = r.station := congrArg Prod.fst hkey
  have h2 : q.date = r.date := congrArg Prod.snd hkey
  simp [h1, h2] at this

theorem nodup_insertOrIgnoreObs (tbl : List ObsRow) (r : ObsRow)
    (h : (tbl.map obsKey).Nodup) : ((insertOrIgnoreObs tbl r).map obsKey).Nodup := by
  unfold insertOrIgnoreObs
  by_cases hp : keyPresent tbl r = true
  · rw [if_pos hp]; exact h
  · rw [if_neg hp, List.map_append]
    simp only [List.map_cons, List.map_nil]
    rw [List.nodup_append]
    refine ⟨h, List.nodup_singleton _, ?_⟩
    intro x hx hx1
    rw [List.mem_singleton] at hx1
    subst hx1
    exact obsKey_not_mem_of_keyPresent_false tbl r (Bool.eq_false_iff.mpr hp) hx

theorem nodup_insertOrIgnoreBatch (tbl : List ObsRow) (rows : List ObsRow)
    (h : (tbl.map obsKey).Nodup) :
    ((insertOrIgnoreBatch tbl rows).map obsKey).Nodup := by
  induction rows generalizing tbl with
  | nil => exact h
  | cons a rest ih =>
    exact ih (insertOrIgnoreObs tbl a) (nodup_insertOrIgnoreObs tbl a h)

theorem find?_append_some {α : Type} (l1 l2 : List α) (p : α → Bool) (a : α)
    (h : l1.find? p = some a) : (l1 ++ l2).find? p = some a := by
  induction l1 with
  | nil => cases h
  | cons x xs ih =>
    rw [List.cons_append]
    by_cases hx : p x = true
    · rw [List.find?_cons_of_pos _ hx] at h
      rw [List.find?_cons_of_pos _ hx]
      exact h
    · rw [List.find?_cons_of_neg _ hx] at h
      rw [List.find?_cons_of_neg _ hx]
      exact ih h

theorem findObs_insertOrIgnoreBatch (tbl : List ObsRow) (rows : List ObsRow)
    (s d : String) (r : ObsRow) (h : findObs tbl s d = some r) :
    findObs (insertOrIgnoreBatch tbl rows) s d = some r := by
  obtain ⟨t, ht⟩ := insertOrIgnoreBatch_sub tbl rows
  rw [ht]
  exact find?_append_some tbl t _ r h

theorem execDataInsert_ok {db db' : DB} {rows : List ObsRow}
    (h : execDataInsert db rows = .ok db') :
    ∃ rs, parseObsRows rows = some rs
      ∧ db'.data = insertOrIgnoreBatch db.data rs ∧ db'.info = db.info := by
  unfold execDataInsert at h
  cases rows with
  | nil => cases h
  | cons a as =>
    cases hp : parseObsRows (a :: as) with
    | none => rw [hp] at h; cases h
    | some rs =>
      rw [hp] at h
      cases h
      exact ⟨rs, rfl, rfl, rfl⟩

/-- Example rows of the spec's uniqueness test: same `(station, date)` key,
first with temp 5.0, second with temp 9.9. -/
def obsA : ObsRow := mkObs "123456" "2020-01-01" "5.0"

/-- Second row of the uniqueness example (duplicate key, temp 9.9). -/
def obsB : ObsRow := mkObs "123456" "2020-01-01" "9.9"

/-- C1: bulk insert into the `data` table keeps the `(station, date)` keys
duplicate-free, never overwrites the row already stored under a key
(first-write-wins), and a duplicate key inside a batch is silently
ignored rather than failing the batch: inserting the 5.0 row and then the
9.9 row for the same key stores exactly the 5.0 row. -/
theorem C1_unique_first_write_wins :
    (∀ (db db' : DB) (rows : List ObsRow), execDataInsert db rows = .ok db' →
        (db.data.map obsKey).Nodup → (db'.data.map obsKey).Nodup)
    ∧ (∀ (db db' : DB) (rows : List ObsRow) (s d : String) (r : ObsRow),
        execDataInsert db rows = .ok db' →
        findObs db.data s d = some r → findObs db'.data s d = some r)
    ∧ insert_single_csv ⟨[], []⟩ (.rows [obsA, obsB]) = .ok ⟨[obsA], []⟩
    ∧ obsA.temp = "5.0" := by
  refine ⟨?_, ?_, by decide, rfl⟩
  · intro db db' rows hok hnd
    obtain ⟨rs, _, hdata, _⟩ := execDataInsert_ok hok
    rw [hdata]
    exact nodup_insertOrIgnoreBatch db.data rs hnd
  · intro db db' rows s d r hok hfind
    obtain ⟨rs, _, hdata, _⟩ := execDataInsert_ok hok
    rw [hdata]
    exact findObs_insertOrIgnoreBatch db.data rs s d r hfind

theorem C1_unique_first_write_wins_witness :
    (((⟨[obsA], []⟩ : DB).data.map obsKey).Nodup
      ∧ findObs (⟨[obsA], []⟩ : DB).data "123456" "2020-01-01" = some obsA) :=
  ⟨C1_unique_first_write_wins.1 ⟨[], []⟩ ⟨[obsA], []⟩ [obsA, obsB] (by decide) (by decide),
   C1_unique_first_write_wins.2.1 ⟨[obsA], []⟩ ⟨[obsA], []⟩ [obsB] "123456" "2020-01-01" obsA
     (by decide) (by decide)⟩

/-- C6: a CSV file whose read fails is skipped whole - the method returns
with the store exactly as before, no partial rows - and the surrounding
loop behaves as if the file were not there at all. -/
theorem C6_malformed_csv_skipped_whole :
    (∀ db : DB, insert_single_csv db .failure = .ok db)
    ∧ (∀ (db : DB) (cs1 cs2 : List CsvParse),
        insertCsvs db (cs1 ++ CsvParse.failure :: cs2) = insertCsvs db (cs1 ++ cs2)) := by
  refine ⟨fun _ => rfl, ?_⟩
  intro db cs1 cs2
  induction cs1 generalizing db with
  | nil => rfl
  | cons c cs ih =>
    rw [List.cons_append, List.cons_append]
    show (match insert_single_csv db c with
          | .ok db2 => insertCsvs db2 (cs ++ CsvParse.failure :: cs2)
          | .error e => (db, some e)) =
        (match insert_single_csv db c with
          | .ok db2 => insertCsvs db2 (cs ++ cs2)
          | .error e => (db, some e))
    cases insert_single_csv db c with
    | ok db2 => exact ih db2
    | error e => rfl

/-- Station name with an embedded double quote, as resolved from the NOAA
response for some station. -/
def nameQ : String := "St\"A"

/-- Concrete resolved location for the quoting counterexample. -/
def locC9 : Location := ⟨"CountryX", "ProvY", "CityZ", "DistW"⟩

/-- External services for the quoting counterexample: the lookup resolves
the station to a name containing a double quote, geocoding succeeds. -/
def envC9 : Enricher :=
  ⟨fun _ => .found nameQ "39.9" "116.4", fun _ _ => some locC9⟩

/-- C9: there is an input - a resolved station whose name contains an
embedded double quote - on which the dict-to-SQL string assembly of
`_insert_single_station` builds a statement whose rendered name literal
does not lex back as a single token, so executing the insert raises
instead of storing the record: the whole insert fails with a syntax
error and nothing is stored. -/
theorem C9_embedded_quote_breaks_insert :
    ¬ quoteFree nameQ
    ∧ parseRendered nameQ = none
    ∧ insert_single_station envC9 ⟨[], []⟩ "711990" = .error .sqlSyntax := by
  exact ⟨by decide, by decide, by decide⟩

/-- C10: a successfully read CSV with zero data rows makes
`_insert_single_csv` assemble `INSERT OR IGNORE INTO data(...) VALUES;`
- an empty `VALUES` clause - and execute it outside any handler: the
execution raises a syntax error, the store is unchanged by the failed
statement, and the error aborts the CSV loop. -/
theorem C10_empty_csv_aborts_run :
    obsInsertStatement [] = obsHeader ++ ";"
    ∧ (∀ db : DB, insert_single_csv db (.rows []) = .error .sqlSyntax)
    ∧ (∀ (db : DB) (post : List CsvParse),
        insertCsvs db (CsvParse.rows [] :: post) = (db, some .sqlSyntax)) := by
  exact ⟨by decide, fun _ => rfl, fun _ _ => rfl⟩

/-! ### The missing-station query -/

theorem mem_missingBase (db : DB) (s : String) :
    s ∈ missingBase db ↔
      ((∃ r ∈ db.data, r.station = s) ∧ ∀ q ∈ db.info, q.station_id ≠ s) := by
  unfold missingBase
  rw [List.mem_dedup, List.mem_filter, List.mem_map]
  simp only [Bool.not_eq_true', List.any_eq_false, beq_iff_eq]

theorem mem_missingStationIds (db : DB) (s : String) :
    s ∈ missingStationIds db ↔
      ((∃ r ∈ db.data, r.station = s) ∧ ∀ q ∈ db.info, q.station_id ≠ s) := by
  unfold missingStationIds
  rw [List.mem_insertionSort]
  exact mem_missingBase db s

theorem nodup_missingStationIds (db : DB) : (missingStationIds db).Nodup := by
  unfold missingStationIds
  exact ((List.perm_insertionSort _ _).nodup_iff).mpr (List.nodup_dedup _)

instance : IsTotal String (fun a b : String => strLeB b a = true) :=
  ⟨fun a b => by
    rcases le_total b a with h | h
    · exact Or.inl ((strLeB_iff b a).mpr h)
    · exact Or.inr ((strLeB_iff a b).mpr h)⟩

instance : IsTrans String (fun a b : String => strLeB b a = true) :=
  ⟨fun a b c h1 h2 => by
    rw [strLeB_iff] at h1 h2 ⊢
    exact le_trans h2 h1⟩

theorem sorted_missingStationIds (db : DB) :
    (missingStationIds db).Sorted (fun a b : String => b ≤ a) := by
  have h := List.sorted_insertionSort
    (fun a b : String => strLeB b a = true) (missingBase db)
  exact h.imp (fun hab => (strLeB_iff _ _).mp hab)

/-- The spec's enrichment example store: observations for stations A and B,
metadata for A only. -/
def exampleDB : DB :=
  ⟨[mkObs "A" "2020-01-01" "1.0", mkObs "B" "2020-01-01" "2.0"],
   [⟨"A", "station a", "1.0", "2.0", "c", "p", "ci", "d"⟩]⟩

/-- C2: the id query driving `insert_station_info` returns exactly the
station ids occurring in some `data` row but in no `info` row, without
duplicates, in descending order; on the example store with observations
for A and B and metadata for A it returns just B. -/
theorem C2_missing_station_ids :
    (∀ (db : DB) (s : String), s ∈ missingStationIds db ↔
        ((∃ r ∈ db.data, r.station = s) ∧ ∀ q ∈ db.info, q.station_id ≠ s))
    ∧ (∀ db : DB, (missingStationIds db).Nodup)
    ∧ (∀ db : DB, (missingStationIds db).Sorted (fun a b : String => b ≤ a))
    ∧ missingStationIds exampleDB = ["B"] :=
  ⟨mem_missingStationIds, nodup_missingStationIds, sorted_missingStationIds, by decide⟩

theorem C2_missing_station_ids_witness : "B" ∈ missingStationIds exampleDB :=
  (C2_missing_station_ids.1 exampleDB "B").mpr
    ⟨⟨mkObs "B" "2020-01-01" "2.0", by decide, by decide⟩, by decide⟩

/-! ### Enrichment: caught and uncaught failures -/

theorem insert_single_station_lookup_fail (env : Enricher) (db : DB) (sid : String)
    (h : env.lookup sid = .netError ∨ env.lookup sid = .badFields) :
    insert_single_station env db sid = .ok db := by
  unfold insert_single_station
  rcases h with h | h <;> rw [h]

theorem enrichGo_cons_skip (env : Enricher) (db : DB) (sid : String) (rest : List String)
    (h : env.lookup sid = .netError ∨ env.lookup sid = .badFields) :
    enrichGo env db (sid :: rest) =
      ((enrichGo env db rest).1, sid :: (enrichGo env db rest).2.1,
        (enrichGo env db rest).2.2) := by
  show (match insert_single_station env db sid with
        | .ok db2 =>
          let out := enrichGo env db2 rest
          (out.1, sid :: out.2.1, out.2.2)
        | .error e => (db, [sid], some e)) = _
  rw [insert_single_station_lookup_fail env db sid h]

theorem insert_single_station_geocode_fail (env : Enricher) (db : DB)
    (sid nm lat lon : String) (hl : env.lookup sid = .found nm lat lon)
    (hg : env.geocode lat lon = none) :
    insert_single_station env db sid = .error .geocodeError := by
  unfold insert_single_station
  rw [hl]
  show (match env.geocode lat lon with
        | none => Except.error RunError.geocodeError
        | some loc => execInfoInsert db (infoValues sid nm lat lon loc)) = _
  rw [hg]

theorem enrichGo_cons_abort (env : Enricher) (db : DB) (sid : String)
    (rest : List String) (e : RunError)
    (h : insert_single_station env db sid = .error e) :
    enrichGo env db (sid :: rest) = (db, [sid], some e) := by
  show (match insert_single_station env db sid with
        | .ok db2 =>
          let out := enrichGo env db2 rest
          (out.1, sid :: out.2.1, out.2.2)
        | .error e => (db, [sid], some e)) = _
  rw [h]

/-- Administrative-region record used by the concrete enrichment
scenarios. -/
def locOk : Location := ⟨"China", "Beijing", "Beijing", "Haidian"⟩

/-- Store for the reverse-geocoding counterexample: observations for the
unresolved stations S2 and S1, empty metadata. -/
def dbC3 : DB :=
  ⟨[mkObs "S2" "2020-01-01" "1.0", mkObs "S1" "2020-01-01" "2.0"], []⟩

/-- External services for the reverse-geocoding counterexample: the NOAA
lookup succeeds for both S2 and S1, but the reverse-geocoding call on
S2's coordinates raises. -/
def envC3 : Enricher :=
  ⟨fun sid =>
      if sid == "S2" then .found "north site" "10" "20"
      else if sid == "S1" then .found "south site" "30" "40"
      else .netError,
   fun lat _ => if lat == "10" then none else some locOk⟩

/-- C3 counterexample: both S2 and S1 are missing (processed in this
order), S1's enrichment would fully succeed, yet the raising
reverse-geocoding call on S2's coordinates aborts the whole batch: only
S2 is ever looked up, the run ends with the uncaught error and the store
unchanged - S1 is never attempted, contradicting the claim that such a
failure is logged and processing continues with the next station. -/
theorem C3_counterexample_geocode_aborts_batch :
    missingStationIds dbC3 = ["S2", "S1"]
    ∧ insert_single_station envC3 dbC3 "S1" =
        .ok ⟨dbC3.data, [⟨"S1", "south site", "30", "40",
          "China", "Beijing", "Beijing", "Haidian"⟩]⟩
    ∧ insert_station_info envC3 dbC3 = (dbC3, ["S2"], some RunError.geocodeError) := by
  exact ⟨by decide, by decide, by decide⟩

/-- C3 as amended: failures of the station-metadata lookup itself (network
error or missing/malformed response fields) are caught per station - the
store is left unchanged for that station and the loop continues with the
remaining ids - but a failing reverse-geocoding call on the obtained
coordinates is NOT handled: it escapes and aborts the batch, leaving the
remaining stations unattempted. -/
theorem C3_amended_lookup_fail_skips_geocode_fail_aborts :
    (∀ (env : Enricher) (db : DB) (sid : String),
        env.lookup sid = .netError ∨ env.lookup sid = .badFields →
        insert_single_station env db sid = .ok db)
    ∧ (∀ (env : Enricher) (db : DB) (sid : String) (rest : List String),
        env.lookup sid = .netError ∨ env.lookup sid = .badFields →
        enrichGo env db (sid :: rest) =
          ((enrichGo env db rest).1, sid :: (enrichGo env db rest).2.1,
            (enrichGo env db rest).2.2))
    ∧ (∀ (env : Enricher) (db : DB) (sid nm lat lon : String) (rest : List String),
        env.lookup sid = .found nm lat lon → env.geocode lat lon = none →
        enrichGo env db (sid :: rest) = (db, [sid], some .geocodeError)) :=
  ⟨insert_single_station_lookup_fail, enrichGo_cons_skip,
   fun env db sid nm lat lon rest hl hg =>
     enrichGo_cons_abort env db sid rest _
       (insert_single_station_geocode_fail env db sid nm lat lon hl hg)⟩

theorem C3_amended_witness :
    insert_single_station envC3 ⟨[], []⟩ "ZZ" = .ok ⟨[], []⟩
    ∧ enrichGo envC3 dbC3 ["S2", "S1"] = (dbC3, ["S2"], some RunError.geocodeError) :=
  ⟨C3_amended_lookup_fail_skips_geocode_fail_aborts.1 envC3 ⟨[], []⟩ "ZZ"
     (Or.inl (by decide)),
   C3_amended_lookup_fail_skips_geocode_fail_aborts.2.2 envC3 dbC3 "S2"
     "north site" "10" "20" ["S1"] (by decide) (by decide)⟩

theorem execInfoInsert_conflict (db : DB) (sid nm lat lon : String) (loc : Location)
    (hclean : ∀ v ∈ infoValues sid nm lat lon loc, quoteFree v)
    (hex : ∃ q ∈ db.info, q.station_id = sid) :
    execInfoInsert db (infoValues sid nm lat lon loc) = .error .integrity := by
  unfold execInfoInsert
  have hparse : (parseValues (infoValues sid nm lat lon loc)).bind mkInfoRow =
      some ⟨sid, nm, lat, lon, loc.country, loc.province, loc.city, loc.district⟩ := by
    rw [parseValues_clean _ hclean]
    rfl
  rw [hparse]
  have hany : db.info.any (fun q => q.station_id == sid) = true := by
    rw [List.any_eq_true]
    obtain ⟨q, hq, he⟩ := hex
    exact ⟨q, hq, beq_iff_eq.mpr he⟩
  show (if db.info.any (fun q => q.station_id == sid) = true then
          Except.error RunError.integrity
        else _) = Except.error RunError.integrity
  rw [if_pos hany]

/-- C7: inserting a station whose `station_id` already sits in the `info`
table executes a plain `INSERT` whose primary-key conflict raises an
integrity error; the statement stands outside the `try/except`, so the
error escapes `_insert_single_station` and aborts the enrichment loop
with the store - in particular the previously stored row - unchanged. -/
theorem C7_integrity_error_propagates :
    ∀ (env : Enricher) (db : DB) (sid nm lat lon : String) (loc : Location),
      env.lookup sid = .found nm lat lon →
      env.geocode lat lon = some loc →
      (∀ v ∈ infoValues sid nm lat lon loc, quoteFree v) →
      (∃ q ∈ db.info, q.station_id = sid) →
      insert_single_station env db sid = .error .integrity
      ∧ ∀ rest : List String,
          enrichGo env db (sid :: rest) = (db, [sid], some .integrity) := by
  intro env db sid nm lat lon loc hl hg hclean hex
  have hins : insert_single_station env db sid = .error .integrity := by
    unfold insert_single_station
    rw [hl]
    show (match env.geocode lat lon with
          | none => Except.error RunError.geocodeError
          | some loc => execInfoInsert db (infoValues sid nm lat lon loc)) = _
    rw [hg]
    exact execInfoInsert_conflict db sid nm lat lon loc hclean hex
  exact ⟨hins, fun rest => enrichGo_cons_abort env db sid rest _ hins⟩

/-- Store for the duplicate-insert scenario: station 555 already has a
metadata row. -/
def dbC7 : DB := ⟨[], [⟨"555", "old name", "1", "2", "c", "p", "ci", "d"⟩]⟩

/-- External services for the duplicate-insert scenario: the lookup and
geocoding for station 555 both succeed. -/
def envC7 : Enricher := ⟨fun _ => .found "new name" "3" "4", fun _ _ => some locOk⟩

theorem C7_integrity_error_propagates_witness :
    insert_single_station envC7 dbC7 "555" = .error .integrity
    ∧ enrichGo envC7 dbC7 ["555"] = (dbC7, ["555"], some RunError.integrity) := by
  have h := C7_integrity_error_propagates envC7 dbC7 "555" "new name" "3" "4" locOk
    (by decide) (by decide) (by decide)
    ⟨⟨"555", "old name", "1", "2", "c", "p", "ci", "d"⟩, by decide, by decide⟩
  exact ⟨h.1, h.2 []⟩

/-! ### The download-skip check of fetch_raw_data -/

theorem fetchStep_skip (w : World) (base : String)
    (acc : List (String × String) × List String) (url : String)
    (h : url ∈ acc.2) : fetchStep w base acc url = acc := by
  unfold fetchStep
  rw [if_pos h]

theorem mem_fileWrite (fs : List String) (nm x : String) (h : x ∈ fs) :
    x ∈ fileWrite fs nm := by
  unfold fileWrite
  by_cases h1 : nm ∈ fs
  · rw [if_pos h1]; exact h
  · rw [if_neg h1]; exact List.mem_append_left _ h

theorem fetchStep_files_mono (w : World) (base : String)
    (acc : List (String × String) × List String) (url x : String)
    (h : x ∈ acc.2) : x ∈ (fetchStep w base acc url).2 := by
  unfold fetchStep
  by_cases h1 : url ∈ acc.2
  · rw [if_pos h1]; exact h
  · rw [if_neg h1]
    by_cases h2 : w.status (urljoin base url) = true
    · rw [if_pos h2]; exact mem_fileWrite _ _ _ h
    · rw [if_neg h2]; exact h

theorem fetchFold_no_request (w : World) (base : String) (url : String)
    (hrefs : List String) :
    ∀ acc : List (String × String) × List String, url ∈ acc.2 →
      (∀ p ∈ acc.1, p.1 ≠ url) →
      ∀ p ∈ (hrefs.foldl (fetchStep w base) acc).1, p.1 ≠ url := by
  induction hrefs with
  | nil => exact fun acc _ h2 => h2
  | cons u rest ih =>
    intro acc h1 h2
    rw [List.foldl_cons]
    apply ih (fetchStep w base acc u) (fetchStep_files_mono w base acc u url h1)
    intro p hp
    unfold fetchStep at hp
    by_cases hu : u ∈ acc.2
    · rw [if_pos hu] at hp
      exact h2 p hp
    · rw [if_neg hu] at hp
      have hneq : u ≠ url := fun he => hu (he ▸ h1)
      by_cases hs : w.status (urljoin base u) = true
      · rw [if_pos hs] at hp
        rcases List.mem_append.mp hp with hp1 | hp1
        · exact h2 p hp1
        · rw [List.mem_singleton] at hp1
          rw [hp1]
          exact hneq
      · rw [if_neg hs] at hp
        rcases List.mem_append.mp hp with hp1 | hp1
        · exact h2 p hp1
        · rw [List.mem_singleton] at hp1
          rw [hp1]
          exact hneq

/-- Remote state for the fetch-dedup counterexample: the catalog lists one
archive link that carries a directory component. -/
def wC5 : World := ⟨["sub/2020.tar.gz"], fun _ => true, fun _ => .failed⟩

/-- C5 counterexample: the file bearing the derived local name (the last
path segment of the href, `2020.tar.gz`) is already in the destination
directory, yet the loop's existence check uses the raw href joined to the
folder (`os.path.join(self.folder, url)`, line 116), so the check misses
and one network request for the archive is issued anyway - refuting the
claim that zero requests are issued whenever the derived local name
exists. -/
theorem C5_counterexample_skip_uses_raw_href :
    lastSegment "sub/2020.tar.gz" = "2020.tar.gz"
    ∧ "2020.tar.gz" ∈ (["2020.tar.gz"] : List String)
    ∧ (fetch_raw_data wC5 "https://example.org/" ["2020.tar.gz"]).1 =
        [("sub/2020.tar.gz", "https://example.org/sub/2020.tar.gz")] := by
  exact ⟨by decide, by decide, by decide⟩

/-- C5 as amended: the existence check is keyed on the raw href joined to
the destination directory, not on the derived local name.  When a file
whose name is the href as given already exists (for the catalog's normal
bare-file-name links the two coincide), the loop iteration is a no-op -
zero network requests for that archive and nothing written - and no
request for that href is issued anywhere in the run. -/
theorem C5_amended_dedup_keyed_on_href :
    (∀ (w : World) (base : String) (acc : List (String × String) × List String)
        (url : String), url ∈ acc.2 → fetchStep w base acc url = acc)
    ∧ (∀ (w : World) (base : String) (fs : List String) (url : String),
        url ∈ fs → ∀ p ∈ (fetch_raw_data w base fs).1, p.1 ≠ url) :=
  ⟨fetchStep_skip,
   fun w base fs url h => fetchFold_no_request w base url w.hrefs ([], fs) h
     (fun p hp => absurd hp (List.not_mem_nil p))⟩

/-- Remote state for the amended-claim witness: one fresh archive and one
archive whose href is already present in the folder. -/
def wC5b : World := ⟨["a.tar.gz", "keep.tar.gz"], fun _ => true, fun _ => .failed⟩

theorem C5_amended_dedup_keyed_on_href_witness :
    fetchStep wC5 "dir/" ([], ["sub/2020.tar.gz"]) "sub/2020.tar.gz" =
      ([], ["sub/2020.tar.gz"])
    ∧ ("a.tar.gz", "dir/a.tar.gz").1 ≠ "keep.tar.gz" :=
  ⟨C5_amended_dedup_keyed_on_href.1 wC5 "dir/" ([], ["sub/2020.tar.gz"])
     "sub/2020.tar.gz" (by decide),
   C5_amended_dedup_keyed_on_href.2 wC5b "dir/" ["keep.tar.gz"] "keep.tar.gz"
     (by decide) ("a.tar.gz", "dir/a.tar.gz") (by decide)⟩

/-! ### Fail-soft extraction -/

theorem extractFailedB_eq_false (r : ExtractResult) (h : r ≠ .failed) :
    extractFailedB r = false := by
  cases r with
  | failed => exact absurd rfl h
  | extracted cs => rfl

theorem countP_extraction_zero (w : World) (l : List String)
    (h : ∀ nm ∈ l, w.extraction nm ≠ .failed) :
    (l.map w.extraction).countP extractFailedB = 0 := by
  rw [List.countP_eq_zero]
  intro r hr
  obtain ⟨nm, hnm, rfl⟩ := List.mem_map.mp hr
  rw [extractFailedB_eq_false _ (h nm hnm)]
  exact Bool.false_ne_true

/-- C4: when the folder holds one corrupt archive among valid ones, the
extraction loop still visits every archive - exactly one failure is
counted, the corrupt archive contributes no CSV batch, and the insert
phase runs over precisely the CSVs of all the valid archives, so the run
proceeds rather than aborting on the extraction error. -/
theorem C4_failsoft_extraction :
    ∀ (w : World) (db : DB) (fs : List String) (pre post : List String) (bad : String),
      fs.filter isGz = pre ++ bad :: post →
      w.extraction bad = .failed →
      (∀ nm ∈ pre ++ post, w.extraction nm ≠ .failed) →
      insert_raw_data w db fs =
        ((insertCsvs db (((pre ++ post).map w.extraction).flatMap extractedCsvs)).1,
          1,
          (insertCsvs db (((pre ++ post).map w.extraction).flatMap extractedCsvs)).2) := by
  intro w db fs pre post bad hfil hbad hval
  have hcsv : csvsOf w fs =
      ((pre ++ post).map w.extraction).flatMap extractedCsvs := by
    unfold csvsOf
    rw [hfil, List.map_append, List.map_cons, hbad, List.flatMap_append,
      List.flatMap_cons]
    show (pre.map w.extraction).flatMap extractedCsvs ++
        ([] ++ (post.map w.extraction).flatMap extractedCsvs) = _
    rw [List.nil_append, List.map_append, List.flatMap_append]
  have hcnt : ((fs.filter isGz).map w.extraction).countP extractFailedB = 1 := by
    rw [hfil, List.map_append, List.map_cons, hbad, List.countP_append,
      List.countP_cons]
    rw [countP_extraction_zero w pre (fun nm hnm => hval nm (List.mem_append_left _ hnm)),
      countP_extraction_zero w post (fun nm hnm => hval nm (List.mem_append_right _ hnm))]
    rfl
  unfold insert_raw_data
  rw [hcsv, hcnt]

/-- Remote state for the fail-soft witness: extraction fails exactly for
`bad.tar.gz` and yields one single-row CSV for every other archive. -/
def wC4 : World :=
  ⟨[], fun _ => true,
   fun nm =>
     if nm == "bad.tar.gz" then .failed
     else .extracted [.rows [mkObs nm "2020-01-01" "1.0"]]⟩

theorem C4_failsoft_extraction_witness :
    insert_raw_data wC4 ⟨[], []⟩ ["a.tar.gz", "bad.tar.gz", "b.tar.gz", "notes.txt"] =
      ((insertCsvs ⟨[], []⟩
          ((["a.tar.gz", "b.tar.gz"].map wC4.extraction).flatMap extractedCsvs)).1,
        1,
        (insertCsvs ⟨[], []⟩
          ((["a.tar.gz", "b.tar.gz"].map wC4.extraction).flatMap extractedCsvs)).2) :=
  C4_failsoft_extraction wC4 ⟨[], []⟩ ["a.tar.gz", "bad.tar.gz", "b.tar.gz", "notes.txt"]
    ["a.tar.gz"] ["b.tar.gz"] "bad.tar.gz" (by decide) (by decide) (by decide)

/-! ### Pipeline idempotence: the fetch phase reaches a fixed point -/

theorem mem_fileWrite_self (fs : List String) (nm : String) : nm ∈ fileWrite fs nm := by
  unfold fileWrite
  by_cases h : nm ∈ fs
  · rw [if_pos h]; exact h
  · rw [if_neg h]
    exact List.mem_append_right _ (List.mem_singleton_self nm)

theorem fetchStep_write (w : World) (base : String)
    (acc : List (String × String) × List String) (url : String)
    (h1 : url ∉ acc.2) (h2 : w.status (urljoin base url) = true) :
    (fetchStep w base acc url).2 = fileWrite acc.2 (lastSegment (urljoin base url)) := by
  unfold fetchStep
  rw [if_neg h1, if_pos h2]

theorem fetchStep_nostatus (w : World) (base : String)
    (acc : List (String × String) × List String) (url : String)
    (h1 : url ∉ acc.2) (h2 : w.status (urljoin base url) = false) :
    (fetchStep w base acc url).2 = acc.2 := by
  unfold fetchStep
  rw [if_neg h1, if_neg (by rw [h2]; exact Bool.false_ne_true)]

theorem fetchFold_files_mono (w : World) (base : String) (hrefs : List String) :
    ∀ (acc : List (String × String) × List String) (x : String), x ∈ acc.2 →
      x ∈ (hrefs.foldl (fetchStep w base) acc).2 := by
  induction hrefs with
  | nil => exact fun _ _ h => h
  | cons u rest ih =>
    intro acc x h
    rw [List.foldl_cons]
    exact ih _ x (fetchStep_files_mono w base acc u x h)

/-- After a fetch pass every catalog href is covered: the href itself is a
file in the folder, or its URL has a failing status, or its saved name is
in the folder - in each case a further pass leaves the folder unchanged. -/
def FetchedP (w : World) (base : String) (fs : List String) (u : String) : Prop :=
  u ∈ fs ∨ w.status (urljoin base u) = false ∨ lastSegment (urljoin base u) ∈ fs

theorem fetchFold_covered (w : World) (base : String) (hrefs : List String) :
    ∀ acc : List (String × String) × List String, ∀ u ∈ hrefs,
      FetchedP w base (hrefs.foldl (fetchStep w base) acc).2 u := by
  induction hrefs with
  | nil => intro acc u h; cases h
  | cons v rest ih =>
    intro acc u hu
    rw [List.foldl_cons]
    rcases List.mem_cons.mp hu with rfl | hr
    · by_cases h1 : u ∈ acc.2
      · left
        apply fetchFold_files_mono w base rest _ u
        rw [fetchStep_skip w base acc u h1]
        exact h1
      · by_cases h2 : w.status (urljoin base u) = true
        · refine Or.inr (Or.inr ?_)
          apply fetchFold_files_mono w base rest _ _
          rw [fetchStep_write w base acc u h1 h2]
          exact mem_fileWrite_self _ _
        · exact Or.inr (Or.inl (Bool.eq_false_iff.mpr h2))
    · exact ih _ u hr

theorem fetchFold_noop (w : World) (base : String) (hrefs : List String) :
    ∀ acc : List (String × String) × List String,
      (∀ u ∈ hrefs, FetchedP w base acc.2 u) →
      (hrefs.foldl (fetchStep w base) acc).2 = acc.2 := by
  induction hrefs with
  | nil => intro acc _; rfl
  | cons v rest ih =>
    intro acc h
    rw [List.foldl_cons]
    have hstep : (fetchStep w base acc v).2 = acc.2 := by
      rcases h v (List.mem_cons_self v rest) with h1 | h2 | h3
      · rw [fetchStep_skip w base acc v h1]
      · by_cases hv : v ∈ acc.2
        · rw [fetchStep_skip w base acc v hv]
        · exact fetchStep_nostatus w base acc v hv h2
      · by_cases hv : v ∈ acc.2
        · rw [fetchStep_skip w base acc v hv]
        · by_cases h2 : w.status (urljoin base v) = true
          · rw [fetchStep_write w base acc v hv h2]
            unfold fileWrite
            rw [if_pos h3]
          · exact fetchStep_nostatus w base acc v hv (Bool.eq_false_iff.mpr h2)
    rw [ih (fetchStep w base acc v) (fun u hu => by rw [hstep]; exact h u (List.mem_cons_of_mem v hu)),
      hstep]

theorem fetch_fixed (w : World) (base : String) (fs0 : List String) :
    (fetch_raw_data w base (fetch_raw_data w base fs0).2).2 =
      (fetch_raw_data w base fs0).2 := by
  unfold fetch_raw_data
  exact fetchFold_noop w base w.hrefs _
    (fun u hu => fetchFold_covered w base w.hrefs ([], fs0) u hu)

/-! ### Pipeline idempotence: re-inserting already inserted CSVs is a no-op -/

theorem insertCsvs_cons_ok {db db2 : DB} {c : CsvParse} (cs : List CsvParse)
    (h : insert_single_csv db c = .ok db2) :
    insertCsvs db (c :: cs) = insertCsvs db2 cs := by
  show (match insert_single_csv db c with
        | .ok db2 => insertCsvs db2 cs
        | .error e => (db, some e)) = _
  rw [h]

theorem insertCsvs_cons_err {db : DB} {c : CsvParse} {e : RunError} (cs : List CsvParse)
    (h : insert_single_csv db c = .error e) :
    insertCsvs db (c :: cs) = (db, some e) := by
  show (match insert_single_csv db c with
        | .ok db2 => insertCsvs db2 cs
        | .error e => (db, some e)) = _
  rw [h]

theorem insert_single_csv_ok_data {db db2 : DB} {c : CsvParse}
    (h : insert_single_csv db c = .ok db2) : ∃ t, db2.data = db.data ++ t := by
  cases c with
  | failure =>
    cases h
    exact ⟨[], (List.append_nil _).symm⟩
  | rows rs =>
    obtain ⟨rs', _, hdata, _⟩ := execDataInsert_ok h
    obtain ⟨t, ht⟩ := insertOrIgnoreBatch_sub db.data rs'
    exact ⟨t, by rw [hdata, ht]⟩

theorem insertCsvs_data_sub : ∀ (cs : List CsvParse) (db : DB),
    ∃ t, (insertCsvs db cs).1.data = db.data ++ t := by
  intro cs
  induction cs with
  | nil => exact fun db => ⟨[], (List.append_nil _).symm⟩
  | cons c cs ih =>
    intro db
    cases h : insert_single_csv db c with
    | ok db2 =>
      rw [insertCsvs_cons_ok cs h]
      obtain ⟨t1, h1⟩ := insert_single_csv_ok_data h
      obtain ⟨t2, h2⟩ := ih db2
      exact ⟨t1 ++ t2, by rw [h2, h1, List.append_assoc]⟩
    | error e =>
      rw [insertCsvs_cons_err cs h]
      exact ⟨[], (List.append_nil _).symm⟩

/-- A CSV batch that can be replayed against the table `tbl` without
changing it: either its read failed, or it is a nonempty batch whose
statement executes and all of whose stored rows already sit in `tbl`. -/
def ReplayOk (tbl : List ObsRow) : CsvParse → Prop
  | .failure => True
  | .rows rs => rs ≠ [] ∧ ∃ rs', parseObsRows rs = some rs'
      ∧ ∀ r ∈ rs', keyPresent tbl r = true

theorem insertCsvs_ok_replay : ∀ (cs : List CsvParse) (db : DB),
    (insertCsvs db cs).2 = none →
    ∀ c ∈ cs, ReplayOk (insertCsvs db cs).1.data c := by
  intro cs
  induction cs with
  | nil => intro db _ c hc; cases hc
  | cons c0 cs ih =>
    intro db hnone c hc
    cases hstep : insert_single_csv db c0 with
    | error e =>
      rw [insertCsvs_cons_err cs hstep] at hnone
      exact absurd hnone (Option.some_ne_none e)
    | ok db2 =>
      rw [insertCsvs_cons_ok cs hstep] at hnone ⊢
      rcases List.mem_cons.mp hc with rfl | hcs
      · cases c with
        | failure => trivial
        | rows rs =>
          have hne : rs ≠ [] := by
            intro he
            rw [he] at hstep
            cases hstep
          obtain ⟨rs', hparse, hdata, _⟩ := execDataInsert_ok hstep
          refine ⟨hne, rs', hparse, ?_⟩
          intro r hr
          obtain ⟨t, ht⟩ := insertCsvs_data_sub cs db2
          rw [ht, hdata]
          exact keyPresent_append _ t r (keyPresent_of_mem_batch rs' r hr db.data)
      · exact ih db2 hnone c hcs

theorem insertCsvs_replay_noop : ∀ (cs : List CsvParse) (db : DB),
    (∀ c ∈ cs, ReplayOk db.data c) → insertCsvs db cs = (db, none) := by
  intro cs
  induction cs with
  | nil => intro db _; rfl
  | cons c0 cs ih =>
    intro db h
    have hstep : insert_single_csv db c0 = .ok db := by
      cases c0 with
      | failure => rfl
      | rows rs =>
        obtain ⟨hne, rs', hparse, hkeys⟩ := h (.rows rs) (List.mem_cons_self _ _)
        show execDataInsert db rs = .ok db
        cases rs with
        | nil => exact absurd rfl hne
        | cons a as =>
          show (match parseObsRows (a :: as) with
                | none => Except.error RunError.sqlSyntax
                | some rs2 =>
                    Except.ok { db with data := insertOrIgnoreBatch db.data rs2 }) =
              Except.ok db
          rw [hparse]
          show Except.ok { data := insertOrIgnoreBatch db.data rs', info := db.info } =
            Except.ok (db : DB)
          rw [insertOrIgnoreBatch_noop db.data rs' hkeys]
    rw [insertCsvs_cons_ok cs hstep]
    exact ih db (fun c hcmem => h c (List.mem_cons_of_mem _ hcmem))

/-! ### Pipeline idempotence: enrichment state evolution -/

/-- The caught failure modes of the station lookup (the `except:` branch
of `_insert_single_station`). -/
def lookupFails (env : Enricher) (sid : String) : Prop :=
  env.lookup sid = .netError ∨ env.lookup sid = .badFields

theorem parseValues_cons_inv {v : String} {vs : List String} {pv : List String}
    (h : parseValues (v :: vs) = some pv) :
    ∃ w ws, parseRendered v = some w ∧ parseValues vs = some ws ∧ pv = w :: ws := by
  unfold parseValues at h
  split at h
  · rename_i w ws hw hws
    cases h
    exact ⟨w, ws, hw, hws, rfl⟩
  · cases h

theorem mkInfoRow_head {pv : List String} {row : InfoRow}
    (h : mkInfoRow pv = some row) : pv.head? = some row.station_id := by
  unfold mkInfoRow at h
  split at h
  · cases h
    rfl
  · cases h

theorem execInfoInsert_ok_inv {db db2 : DB} {vals : List String}
    (h : execInfoInsert db vals = .ok db2) :
    db2.data = db.data ∧ ∃ row, db2.info = db.info ++ [row] := by
  unfold execInfoInsert at h
  split at h
  · cases h
  · rename_i row hrow
    split at h
    · cases h
    · cases h
      exact ⟨rfl, row, rfl⟩

theorem execInfoInsert_ok_station {db db2 : DB} {sid nm lat lon : String}
    {loc : Location}
    (h : execInfoInsert db (infoValues sid nm lat lon loc) = .ok db2)
    (hq : quoteFree sid) : ∃ q ∈ db2.info, q.station_id = sid := by
  unfold execInfoInsert at h
  cases hp : parseValues (infoValues sid nm lat lon loc) with
  | none =>
    rw [hp] at h
    cases h
  | some pv =>
    rw [hp, Option.some_bind] at h
    cases hm : mkInfoRow pv with
    | none =>
      rw [hm] at h
      cases h
    | some row =>
      rw [hm] at h
      have hid : row.station_id = sid := by
        obtain ⟨w, ws, hw, _, rfl⟩ := parseValues_cons_inv hp
        have h1 : (w :: ws).head? = some row.station_id := mkInfoRow_head hm
        rw [parseRendered_clean sid hq] at hw
        have h2 : w = sid := by
          injection hw with h3
          exact h3.symm
        injection h1 with h4
        rw [← h4, h2]
      have h2 : (if (db.info.any fun q => q.station_id == row.station_id) = true
            then Except.error RunError.integrity
            else Except.ok { data := db.data, info := db.info ++ [row] }) =
          Except.ok db2 := h
      by_cases hc : (db.info.any fun q => q.station_id == row.station_id) = true
      · rw [if_pos hc] at h2
        cases h2
      · rw [if_neg hc] at h2
        cases h2
        exact ⟨row, List.mem_append_right _ (List.mem_singleton_self row), hid⟩

theorem insert_single_station_ok_inv {env : Enricher} {db db2 : DB} {sid : String}
    (h : insert_single_station env db sid = .ok db2) :
    db2.data = db.data ∧ ∃ t, db2.info = db.info ++ t := by
  unfold insert_single_station at h
  cases hl : env.lookup sid with
  | netError =>
    rw [hl] at h
    cases h
    exact ⟨rfl, [], (List.append_nil _).symm⟩
  | badFields =>
    rw [hl] at h
    cases h
    exact ⟨rfl, [], (List.append_nil _).symm⟩
  | found nm lat lon =>
    rw [hl] at h
    have h2 : (match env.geocode lat lon with
               | none => Except.error RunError.geocodeError
               | some loc => execInfoInsert db (infoValues sid nm lat lon loc)) =
        .ok db2 := h
    cases hg : env.geocode lat lon with
    | none =>
      rw [hg] at h2
      cases h2
    | some loc =>
      rw [hg] at h2
      obtain ⟨hd, row, hi⟩ := execInfoInsert_ok_inv h2
      exact ⟨hd, [row], hi⟩

theorem insert_single_station_ok_cases {env : Enricher} {db db2 : DB} {sid : String}
    (h : insert_single_station env db sid = .ok db2) (hq : quoteFree sid) :
    lookupFails env sid ∨ ∃ q ∈ db2.info, q.station_id = sid := by
  unfold insert_single_station at h
  cases hl : env.lookup sid with
  | netError => exact Or.inl (Or.inl hl)
  | badFields => exact Or.inl (Or.inr hl)
  | found nm lat lon =>
    rw [hl] at h
    have h2 : (match env.geocode lat lon with
               | none => Except.error RunError.geocodeError
               | some loc => execInfoInsert db (infoValues sid nm lat lon loc)) =
        .ok db2 := h
    cases hg : env.geocode lat lon with
    | none =>
      rw [hg] at h2
      cases h2
    | some loc =>
      rw [hg] at h2
      exact Or.inr (execInfoInsert_ok_station h2 hq)

theorem enrichGo_cons_ok {env : Enricher} {db db2 : DB} {sid : String}
    (rest : List String) (h : insert_single_station env db sid = .ok db2) :
    enrichGo env db (sid :: rest) =
      ((enrichGo env db2 rest).1, sid :: (enrichGo env db2 rest).2.1,
        (enrichGo env db2 rest).2.2) := by
  show (match insert_single_station env db sid with
        | .ok db2 =>
          let out := enrichGo env db2 rest
          (out.1, sid :: out.2.1, out.2.2)
        | .error e => (db, [sid], some e)) = _
  rw [h]

theorem enrichGo_state (env : Enricher) : ∀ (l : List String) (db : DB),
    (enrichGo env db l).1.data = db.data ∧ ∃ t, (enrichGo env db l).1.info = db.info ++ t := by
  intro l
  induction l with
  | nil => exact fun db => ⟨rfl, [], (List.append_nil _).symm⟩
  | cons sid rest ih =>
    intro db
    cases h : insert_single_station env db sid with
    | ok db2 =>
      rw [enrichGo_cons_ok rest h]
      obtain ⟨hd2, t2, hi2⟩ := ih db2
      obtain ⟨hd1, t1, hi1⟩ := insert_single_station_ok_inv h
      exact ⟨by rw [hd2, hd1], t1 ++ t2, by rw [hi2, hi1, List.append_assoc]⟩
    | error e =>
      rw [enrichGo_cons_abort env db sid rest e h]
      exact ⟨rfl, [], (List.append_nil _).symm⟩

theorem enrichGo_none_resolved (env : Enricher) : ∀ (l : List String) (db : DB),
    (enrichGo env db l).2.2 = none →
    ∀ sid ∈ l, quoteFree sid →
      lookupFails env sid ∨ ∃ q ∈ (enrichGo env db l).1.info, q.station_id = sid := by
  intro l
  induction l with
  | nil => intro db _ sid hs; cases hs
  | cons s0 rest ih =>
    intro db hnone sid hs hq
    cases hstep : insert_single_station env db s0 with
    | error e =>
      rw [enrichGo_cons_abort env db s0 rest e hstep] at hnone
      exact absurd hnone (Option.some_ne_none e)
    | ok db2 =>
      rw [enrichGo_cons_ok rest hstep] at hnone ⊢
      rcases List.mem_cons.mp hs with rfl | hmem
      · rcases insert_single_station_ok_cases hstep hq with hf | ⟨q, hqmem, hqid⟩
        · exact Or.inl hf
        · right
          obtain ⟨_, t, hinfo⟩ := enrichGo_state env rest db2
          exact ⟨q, by rw [hinfo]; exact List.mem_append_left _ hqmem, hqid⟩
      · exact ih db2 hnone sid hmem hq

theorem enrichGo_all_fail (env : Enricher) : ∀ (l : List String) (db : DB),
    (∀ sid ∈ l, lookupFails env sid) → enrichGo env db l = (db, l, none) := by
  intro l
  induction l with
  | nil => intro db _; rfl
  | cons s0 rest ih =>
    intro db h
    rw [enrichGo_cons_ok rest
      (insert_single_station_lookup_fail env db s0 (h s0 (List.mem_cons_self _ _)))]
    rw [ih db (fun s hs => h s (List.mem_cons_of_mem _ hs))]

/-- C8: a second pipeline run against the same remote state, starting from
the state a successful first run produced, changes nothing: the fetch
pass leaves the folder as it is, re-inserting every CSV is swallowed by
the ignore-on-conflict key, and the only external lookups issued are for
the stations still missing - none of them resolved in the first run
(station ids are quote-free, as NOAA ids are numeric).  The run ends in
the same machine state with no error. -/
theorem C8_pipeline_idempotent :
    ∀ (w : World) (base : String) (env : Enricher) (m0 m1 : Machine)
      (calls1 : List String),
      runPipeline w base env m0 = (m1, calls1, none) →
      (∀ r ∈ m1.db.data, quoteFree r.station) →
      ∃ calls2, runPipeline w base env m1 = (m1, calls2, none)
        ∧ ∀ sid ∈ calls2, ∀ q ∈ m1.db.info, q.station_id ≠ sid := by
  intro w base env m0 m1 calls1 hrun hq
  unfold runPipeline pipelineTail at hrun
  cases hres : (insert_raw_data w m0.db (fetch_raw_data w base m0.fs).2).2.2 with
  | some e =>
    rw [hres] at hrun
    have h0 : some e = none := congrArg (fun p => p.2.2) hrun
    exact absurd h0 (Option.some_ne_none e)
  | none =>
    rw [hres] at hrun
    have hm : (⟨(fetch_raw_data w base m0.fs).2,
        (insert_station_info env
          (insert_raw_data w m0.db (fetch_raw_data w base m0.fs).2).1).1⟩ : Machine) =
        m1 := congrArg (fun p => p.1) hrun
    have he : (insert_station_info env
        (insert_raw_data w m0.db (fetch_raw_data w base m0.fs).2).1).2.2 = none :=
      congrArg (fun p => p.2.2) hrun
    have hfs1 : m1.fs = (fetch_raw_data w base m0.fs).2 := by rw [← hm]
    have hdb1 : m1.db = (insert_station_info env
        (insert_raw_data w m0.db (fetch_raw_data w base m0.fs).2).1).1 := by rw [← hm]
    have hins1 : (insertCsvs m0.db (csvsOf w (fetch_raw_data w base m0.fs).2)).2 =
        none := hres
    have hstdata : (insert_station_info env
        (insert_raw_data w m0.db (fetch_raw_data w base m0.fs).2).1).1.data =
        (insert_raw_data w m0.db (fetch_raw_data w base m0.fs).2).1.data :=
      (enrichGo_state env
        (missingStationIds (insert_raw_data w m0.db (fetch_raw_data w base m0.fs).2).1)
        (insert_raw_data w m0.db (fetch_raw_data w base m0.fs).2).1).1
    have hdata : m1.db.data =
        (insertCsvs m0.db (csvsOf w (fetch_raw_data w base m0.fs).2)).1.data := by
      rw [hdb1]
      exact hstdata
    have hinfo_sub : ∃ t, m1.db.info =
        (insert_raw_data w m0.db (fetch_raw_data w base m0.fs).2).1.info ++ t := by
      rw [hdb1]
      exact (enrichGo_state env
        (missingStationIds (insert_raw_data w m0.db (fetch_raw_data w base m0.fs).2).1)
        (insert_raw_data w m0.db (fetch_raw_data w base m0.fs).2).1).2
    have hins2 : insertCsvs m1.db (csvsOf w (fetch_raw_data w base m0.fs).2) =
        (m1.db, none) := by
      apply insertCsvs_replay_noop
      intro c hc
      have h0 := insertCsvs_ok_replay (csvsOf w (fetch_raw_data w base m0.fs).2)
        m0.db hins1 c hc
      rw [hdata]
      exact h0
    have hmiss : ∀ sid ∈ missingStationIds m1.db, lookupFails env sid := by
      intro sid hsid
      obtain ⟨⟨r, hr, hrs⟩, hninfo⟩ := (mem_missingStationIds m1.db sid).mp hsid
      have hqsid : quoteFree sid := hrs ▸ hq r hr
      have hmiss1 : sid ∈ missingStationIds
          (insert_raw_data w m0.db (fetch_raw_data w base m0.fs).2).1 := by
        rw [mem_missingStationIds]
        refine ⟨⟨r, ?_, hrs⟩, ?_⟩
        · exact hdata ▸ hr
        · intro q hq2
          obtain ⟨t, hinfo⟩ := hinfo_sub
          exact hninfo q (by rw [hinfo]; exact List.mem_append_left _ hq2)
      have henr1 : (enrichGo env
          (insert_raw_data w m0.db (fetch_raw_data w base m0.fs).2).1
          (missingStationIds
            (insert_raw_data w m0.db (fetch_raw_data w base m0.fs).2).1)).2.2 =
          none := he
      rcases enrichGo_none_resolved env
          (missingStationIds (insert_raw_data w m0.db (fetch_raw_data w base m0.fs).2).1)
          (insert_raw_data w m0.db (fetch_raw_data w base m0.fs).2).1
          henr1 sid hmiss1 hqsid with hf | ⟨q, hqmem, hqid⟩
      · exact hf
      · exact absurd hqid (hninfo q (by rw [hdb1]; exact hqmem))
    refine ⟨missingStationIds m1.db, ?_, ?_⟩
    · unfold runPipeline pipelineTail
      rw [hfs1, fetch_fixed w base m0.fs]
      have h22 : (insert_raw_data w m1.db (fetch_raw_data w base m0.fs).2).2.2 =
          none := by
        show (insertCsvs m1.db (csvsOf w (fetch_raw_data w base m0.fs).2)).2 = none
        rw [hins2]
      rw [h22]
      have h1 : (insert_raw_data w m1.db (fetch_raw_data w base m0.fs).2).1 = m1.db := by
        show (insertCsvs m1.db (csvsOf w (fetch_raw_data w base m0.fs).2)).1 = m1.db
        rw [hins2]
      rw [h1]
      have h2 : insert_station_info env m1.db =
          (m1.db, missingStationIds m1.db, none) :=
        enrichGo_all_fail env (missingStationIds m1.db) m1.db hmiss
      rw [h2]
      have h3 : (⟨(fetch_raw_data w base m0.fs).2, m1.db⟩ : Machine) = m1 := by
        rw [← hfs1]
      rw [h3]
    · intro sid hsid q hq2
      exact ((mem_missingStationIds m1.db sid).mp hsid).2 q hq2

/-- Remote state for the idempotence witness: one archive whose extraction
yields one single-row CSV for station 777. -/
def wC8 : World :=
  ⟨["a.tar.gz"], fun _ => true,
   fun _ => .extracted [.rows [mkObs "777" "2020-01-01" "1.0"]]⟩

/-- External services for the idempotence witness: every station lookup
fails with a network error (so station 777 stays in the missing set). -/
def envC8 : Enricher := ⟨fun _ => .netError, fun _ _ => none⟩

/-- Machine state after the first run of the idempotence witness. -/
def mC8out : Machine := ⟨["a.tar.gz"], ⟨[mkObs "777" "2020-01-01" "1.0"], []⟩⟩

theorem C8_pipeline_idempotent_witness :
    ∃ calls2, runPipeline wC8 "http://e/" envC8 mC8out = (mC8out, calls2, none)
      ∧ ∀ sid ∈ calls2, ∀ q ∈ mC8out.db.info, q.station_id ≠ sid :=
  C8_pipeline_idempotent wC8 "http://e/" envC8 ⟨[], ⟨[], []⟩⟩ mC8out ["777"]
    (by decide) (by decide)
